import Mathlib

/-!
Shallow embedding of the embalses ingestion pipeline
(`fetch_embalses.py`, `fetch_embalses_linux.py`) and of the read-API
row formatting (`api.py`), together with theorems checking the
specification claims against the code.
-/

namespace Embalses

/-! ## Character and string helpers

Python string operations are modelled structurally over `List Char`
so that every definition reduces inside the kernel. -/

def isWS (c : Char) : Bool :=
  c == ' ' || c == '\t' || c == '\n' || c == '\r'

/-- Python `str.strip()`. -/
def trimChars (l : List Char) : List Char :=
  ((l.dropWhile isWS).reverse.dropWhile isWS).reverse

/-- Python `c.strip().upper().replace(" ", "_")` applied per character:
upper-casing first, then replacing each space by an underscore
(the replace pattern is the single space character). -/
def canonChars (l : List Char) : List Char :=
  (trimChars l).map (fun c => if c.toUpper == ' ' then '_' else c.toUpper)

def canonCol (s : String) : String := ⟨canonChars s.data⟩

def lowerChars (l : List Char) : List Char := l.map Char.toLower

def strToLower (s : String) : String := ⟨lowerChars s.data⟩

def startsWithCL : List Char → List Char → Bool
  | _, [] => true
  | [], _ :: _ => false
  | a :: as, b :: bs => a == b && startsWithCL as bs

/-- Python substring containment `pat in l`. -/
def containsSub : List Char → List Char → Bool
  | [], pat => pat.isEmpty
  | l@(_ :: rest), pat => startsWithCL l pat || containsSub rest pat

/-- Python `s.endswith(suf)`. -/
def endsWithCL (l suf : List Char) : Bool :=
  startsWithCL l.reverse suf.reverse

def strEndsWith (s suf : String) : Bool := endsWithCL s.data suf.data

/-- Split on a single-character separator, like Python `s.split(sep)`
for a one-character `sep`. -/
def splitOnChar (sep : Char) : List Char → List (List Char)
  | [] => [[]]
  | a :: rest =>
    match splitOnChar sep rest with
    | [] => if a == sep then [[], []] else [[a]]
    | h :: t => if a == sep then [] :: h :: t else (a :: h) :: t

def natDigits (l : List Char) : Nat :=
  l.foldl (fun acc c => acc * 10 + (c.toNat - 48)) 0

def digitsToNat? (l : List Char) : Option Nat :=
  if !l.isEmpty && l.all Char.isDigit then some (natDigits l) else none

/-! ## Cell values

A scalar cell as it flows through pandas and into SQLite.  `null`
stands for Python `None`, pandas `NaN`/`NaT` and SQL `NULL` alike
(the Python sqlite3 binding stores float NaN as SQL NULL); `inf` and
`ninf` are the IEEE infinities, which SQLite stores as real values,
distinct from NULL. -/

inductive Val where
  | null
  | num (q : ℚ)
  | inf
  | ninf
  | str (s : String)
deriving DecidableEq

/-- Rational arithmetic is routed through `Rat.divInt` on the raw
numerator and denominator so that every concrete value reduces inside
the kernel; the lemmas `qDiv_eq` and `qMulInt_eq` below identify these
with the field operations of `ℚ`. -/
def qDiv (a b : ℚ) : ℚ := Rat.divInt (a.num * (b.den : ℤ)) ((a.den : ℤ) * b.num)

def qMulInt (q : ℚ) (n : ℤ) : ℚ := Rat.divInt (q.num * n) (q.den : ℤ)

def qNeg (q : ℚ) : ℚ := Rat.divInt (-q.num) (q.den : ℤ)

/-- Floor of a rational, computably (`Int.fdiv` floors). -/
def ratFloor (q : ℚ) : ℤ := Int.fdiv q.num q.den

/-- Round-half-to-even to an integer, the rounding used by
numpy `Series.round` and by Python `round`.  The fractional part
`q - f` equals `(q.num - f * q.den) / q.den` with a positive
denominator, so the comparisons with `1/2` are done on integers. -/
def roundHalfEven (q : ℚ) : ℤ :=
  let f : ℤ := ratFloor q
  let t : ℤ := 2 * (q.num - f * q.den)
  if t < (q.den : ℤ) then f
  else if (q.den : ℤ) < t then f + 1
  else if f % 2 = 0 then f else f + 1

def pow10 (d : Nat) : ℤ := ((10 ^ d : ℕ) : ℤ)

/-- Round to `d` decimal digits, half to even. -/
def roundTo (d : Nat) (q : ℚ) : ℚ :=
  Rat.divInt (roundHalfEven (qMulInt q (pow10 d))) (pow10 d)

/-- IEEE-754 division as performed by pandas on float columns:
division by zero yields a signed infinity (NaN, i.e. `null`, for
0/0); missing operands propagate.  String operands are out of the
modelled scope and map to `null`. -/
def divVal : Val → Val → Val
  | .num a, .num b =>
    if b = 0 then (if 0 < a then .inf else if a < 0 then .ninf else .null)
    else .num (qDiv a b)
  | .num _, .inf => .num 0
  | .num _, .ninf => .num 0
  | .inf, .num b => if 0 ≤ b then .inf else .ninf
  | .ninf, .num b => if 0 ≤ b then .ninf else .inf
  | _, _ => .null

/-- Multiplication by the positive constant 100 (`series * 100`). -/
def mul100 : Val → Val
  | .num a => .num (qMulInt a 100)
  | .inf => .inf
  | .ninf => .ninf
  | _ => .null

/-- `Series.round(d)`: rounds finite values, fixes infinities,
propagates NaN. -/
def roundVal (d : Nat) : Val → Val
  | .num a => .num (roundTo d a)
  | .inf => .inf
  | .ninf => .ninf
  | _ => .null

/-! ## DataFrames -/

/-- A pandas DataFrame: column labels plus rows of cells aligned with
the labels positionally. -/
structure DataFrame where
  cols : List String
  rows : List (List Val)
deriving DecidableEq

def colIdx (cols : List String) (c : String) : Option Nat :=
  cols.findIdx? (· == c)

/-- The cell of row `r` under column label `c` (first occurrence). -/
def cellAt (cols : List String) (r : List Val) (c : String) : Val :=
  match colIdx cols c with
  | some i => r.getD i .null
  | none => .null

/-! ## Normalization (`fetch_embalses.py`, `normalizar`) -/

/-- The static rename table `COLUMN_MAP` of `fetch_embalses.py`. -/
def COLUMN_MAP : List (String × String) :=
  [("EMBALSE", "nombre"),
   ("NOMBRE_EMBALSE", "nombre"),
   ("NOMBRE", "nombre"),
   ("CUENCA", "cuenca"),
   ("AMBITO", "cuenca"),
   ("COMUNIDAD", "comunidad"),
   ("CAPACIDAD", "capacidad_hm3"),
   ("CAPACIDAD_TOTAL", "capacidad_hm3"),
   ("CAP_TOTAL", "capacidad_hm3"),
   ("VOLUMEN", "volumen_hm3"),
   ("AGUA_TOTAL", "volumen_hm3"),
   ("ELEC_CAPACIDAD", "energia_mwh"),
   ("FECHA", "fecha"),
   ("ANO", "anio"),
   ("AÑO", "anio"),
   ("SEMANA", "semana"),
   ("PORCENTAJE", "porcentaje"),
   ("PORC", "porcentaje")]

/-- `df.rename(columns=...)`: a column keeps its name when it is not a
key of the map. -/
def renombrar (c : String) : String :=
  (COLUMN_MAP.lookup c).getD c

def esBisiesto (y : Nat) : Bool :=
  (y % 4 == 0 && y % 100 != 0) || y % 400 == 0

def diasMes (y m : Nat) : Nat :=
  if m == 2 then (if esBisiesto y then 29 else 28)
  else if m == 4 || m == 6 || m == 9 || m == 11 then 30
  else 31

/-- ISO `YYYY-M-D` date parsing with calendar validation.  This models
the slice of `pandas.to_datetime` behaviour the pipeline relies on:
well-formed ISO dates parse, junk such as `"not-a-date"` does not.
Other input formats accepted by pandas are outside the modelled scope. -/
def parseIsoDate (s : String) : Option (Nat × Nat × Nat) :=
  match splitOnChar '-' (trimChars s.data) with
  | [ys, ms, ds] =>
    match digitsToNat? ys, digitsToNat? ms, digitsToNat? ds with
    | some y, some m, some d =>
      if 1 ≤ m && m ≤ 12 && 1 ≤ d && d ≤ diasMes y m then some (y, m, d)
      else none
    | _, _, _ => none
  | _ => none

def pad2 (n : Nat) : String :=
  if n < 10 then "0" ++ toString n else toString n

def pad4 (n : Nat) : String :=
  if n < 10 then "000" ++ toString n
  else if n < 100 then "00" ++ toString n
  else if n < 1000 then "0" ++ toString n
  else toString n

/-- Rendering of a date in the `%Y-%m-%d` strftime shape. -/
def fmtFecha (y m d : Nat) : String :=
  pad4 y ++ "-" ++ pad2 m ++ "-" ++ pad2 d

/-- `pd.to_datetime(col, errors="coerce").dt.strftime("%Y-%m-%d")` on
one cell: a parseable date is re-rendered in ISO form, anything else
coerces to NaT, which strftime turns into NaN, stored as NULL.
Numeric epoch inputs are outside the modelled scope and map to null. -/
def parseFecha : Val → Val
  | .str s =>
    match parseIsoDate s with
    | some (y, m, d) => .str (fmtFecha y m d)
    | none => .null
  | _ => .null

/-- `normalizar` of `fetch_embalses.py`: canonicalize headers, apply
the rename table, derive `porcentaje` when absent and both operands
exist, and coerce the `fecha` column to ISO strings. -/
def normalizar (df : DataFrame) : DataFrame :=
  let cols1 := df.cols.map (fun c => renombrar (canonCol c))
  let derivar := !cols1.contains "porcentaje" &&
      cols1.contains "volumen_hm3" && cols1.contains "capacidad_hm3"
  let cols2 := if derivar then cols1 ++ ["porcentaje"] else cols1
  let rows2 :=
    if derivar then
      df.rows.map (fun r =>
        r ++ [roundVal 2 (mul100 (divVal (cellAt cols1 r "volumen_hm3")
                                         (cellAt cols1 r "capacidad_hm3")))])
    else df.rows
  let rows3 :=
    match colIdx cols2 "fecha" with
    | some i => rows2.map (fun r => r.set i (parseFecha (r.getD i .null)))
    | none => rows2
  ⟨cols2, rows3⟩

/-! ## Snapshot store (`fetch_embalses.py`, `guardar_db`) -/

/-- The durable state of `embalses.db`: the `embalses` table, whether
the `embalses_ultimo` view exists (its contents are computed from the
current table at query time), and the `meta` key-value table. -/
structure DBState where
  embalses : Option DataFrame
  vista : Bool
  meta : List (String × String)
deriving DecidableEq

/-- `INSERT OR REPLACE` into a table whose first column is the
primary key: the row holding the key is replaced when one exists,
otherwise the new row is appended. -/
def metaUpsert : List (String × String) → String → String →
    List (String × String)
  | [], k, v => [(k, v)]
  | p :: ps, k, v =>
    if p.1 == k then (k, v) :: ps else p :: metaUpsert ps k v

/-- `df.to_sql("embalses", con, if_exists="replace", index=False)`. -/
def setTable (df : DataFrame) (st : DBState) : DBState :=
  { st with embalses := some df }

/-- `DROP VIEW IF EXISTS` followed by the conditional `CREATE VIEW`. -/
def setVista (df : DataFrame) (st : DBState) : DBState :=
  { st with vista := df.cols.contains "fecha" && df.cols.contains "nombre" }

/-- The two `INSERT OR REPLACE INTO meta` statements, in source
order: `ultima_actualizacion` first, then `total_registros`. -/
def setMeta (df : DataFrame) (now : String) (st : DBState) : DBState :=
  let m1 := metaUpsert st.meta "ultima_actualizacion" now
  { st with meta := metaUpsert m1 "total_registros" (toString df.rows.length) }

/-- `guardar_db` run to completion. -/
def guardarDb (df : DataFrame) (st : DBState) (now : String) : DBState :=
  setMeta df now (setVista df (setTable df st))

/-- `guardar_db` with a failure injected at statement `failAt`,
returning the durable state a reader sees afterwards.  Statement
numbering: 1 = `DROP TABLE embalses` (inside the pandas `to_sql`
replace), 2 = `CREATE TABLE embalses`, 3 = the row inserts,
4 = `DROP VIEW IF EXISTS`, 5 = the conditional `CREATE VIEW`,
6 = `CREATE TABLE IF NOT EXISTS meta`, 7-8 = the meta upserts,
9 = `con.commit()`; `failAt ≥ 10` means no failure.  Durability on a
raw sqlite3 connection: Python opens an implicit transaction only
before DML, so each DDL statement (the drops and creates, including
the view statements) takes effect as soon as it runs; the row
inserts execute inside one pandas-managed transaction that commits
on success and rolls back to the freshly created empty table on
failure; only the two meta upserts stay pending until `con.commit()`.
A failure at statement `failAt` therefore leaves every earlier
statement durable under these rules: at 1 nothing has changed yet,
at 2 the old table is already gone, at 3 an empty new table is
visible, at 5 the view has been dropped but not recreated, and from
6 to 9 the new table and view are visible while the metadata is
still the old one. -/
def guardarDbAt (df : DataFrame) (st : DBState) (now : String)
    (failAt : Nat) : DBState :=
  if failAt ≤ 1 then st
  else if failAt = 2 then { st with embalses := none }
  else if failAt = 3 then { st with embalses := some ⟨df.cols, []⟩ }
  else if failAt = 4 then setTable df st
  else if failAt = 5 then { setTable df st with vista := false }
  else if failAt ≤ 9 then setVista df (setTable df st)
  else guardarDb df st now

/-- One pipeline run from an already parsed frame: `normalizar`
followed by `guardar_db` (`main` of `fetch_embalses.py`). -/
def pipelineRun (df : DataFrame) (st : DBState) (now : String) : DBState :=
  guardarDb (normalizar df) st now

/-! ## The `embalses_ultimo` view

`SELECT e.* FROM embalses e INNER JOIN (SELECT nombre, MAX(fecha) AS
max_fecha FROM embalses GROUP BY nombre) latest ON e.nombre =
latest.nombre AND e.fecha = latest.max_fecha`.  SQL `MAX` ignores
NULLs and SQL equality never matches a NULL operand, so only rows
with a non-null `nombre` and `fecha` can join; text comparison is
bytewise, matched here by the lexicographic order on strings. -/

def nombreDe (df : DataFrame) (r : List Val) : Val := cellAt df.cols r "nombre"

def fechaDe (df : DataFrame) (r : List Val) : Val := cellAt df.cols r "fecha"

/-- Lexicographic comparison by code point, the order SQLite uses for
TEXT under the default (bytewise) collation on ASCII data. -/
def ltChars : List Char → List Char → Bool
  | [], [] => false
  | [], _ :: _ => true
  | _ :: _, [] => false
  | a :: as, b :: bs =>
    if a.toNat < b.toNat then true
    else if b.toNat < a.toNat then false
    else ltChars as bs

def ltStr (a b : String) : Bool := ltChars a.data b.data

/-- `a` sorts no later than `b`. -/
def leStr (a b : String) : Bool := !ltStr b a

/-- SQL `MAX` over the non-null values of a group. -/
def maxStr : List String → Option String
  | [] => none
  | s :: rest =>
    match maxStr rest with
    | none => some s
    | some m => some (if ltStr s m then m else s)

/-- The `fecha` contributed by a row to the `MAX(fecha)` aggregate of
the group of name `n`: only rows whose `nombre` equals `n` and whose
`fecha` is non-null contribute. -/
def fechaKey (df : DataFrame) (n : String) (r : List Val) : Option String :=
  match nombreDe df r, fechaDe df r with
  | .str nm, .str f => if nm = n then some f else none
  | _, _ => none

def fechasFor (df : DataFrame) (n : String) : List String :=
  df.rows.filterMap (fechaKey df n)

def maxFechaFor (df : DataFrame) (n : String) : Option String :=
  maxStr (fechasFor df n)

/-- The join predicate of the view for one row of `embalses`. -/
def enVista (df : DataFrame) (r : List Val) : Bool :=
  match nombreDe df r, fechaDe df r with
  | .str nm, .str f => decide (maxFechaFor df nm = some f)
  | _, _ => false

/-- The rows returned by querying `embalses_ultimo`. -/
def vistaUltimo (df : DataFrame) : List (List Val) :=
  df.rows.filter (enVista df)

/-! ## Archive entry selection (`parsear_excel` / `parsear`) -/

def isExcelName (n : String) : Bool :=
  strEndsWith (strToLower n) ".xlsx" || strEndsWith (strToLower n) ".xls"

def isMdbName (n : String) : Bool :=
  strEndsWith (strToLower n) ".mdb"

inductive Sel where
  | excel (n : String)
  | mdb (n : String)
  | unsupported (nombres : List String)
deriving DecidableEq

/-- Entry selection of `parsear_excel`: the excel comprehension is
checked first and its first element taken; otherwise the first mdb
entry; otherwise `ValueError` carrying the full name list. -/
def seleccionar (nombres : List String) : Sel :=
  match nombres.filter isExcelName with
  | n :: _ => .excel n
  | [] =>
    match nombres.filter isMdbName with
    | n :: _ => .mdb n
    | [] => .unsupported nombres

inductive PipeError where
  | unsupported (nombres : List String)
deriving DecidableEq

/-- `main` of `fetch_embalses.py` from the downloaded archive onward.
An archive is a list of entries, each carrying the frame its payload
parses to (payload decoding itself is external tooling).  The second
component is the database state after the run: `guardar_db` is the
only writer and runs only after extraction and normalization
succeed. -/
def mainModel (entries : List (String × DataFrame)) (st : DBState)
    (now : String) : Except PipeError DBState × DBState :=
  let nombres := entries.map Prod.fst
  match seleccionar nombres with
  | .excel n =>
    let st' := pipelineRun ((entries.lookup n).getD ⟨[], []⟩) st now
    (.ok st', st')
  | .mdb n =>
    let st' := pipelineRun ((entries.lookup n).getD ⟨[], []⟩) st now
    (.ok st', st')
  | .unsupported ns => (.error (.unsupported ns), st)

/-! ## Legacy-database parsing (`parsear_mdb_linux`) -/

/-- The environment a `parsear_mdb_linux` call observes: the table
list printed by `mdb-tables`, whether `mdb-export` exits with status
0, and the frame its csv output parses to. -/
structure MdbEnv where
  tablas : List String
  exportOk : Bool
  exported : DataFrame
deriving DecidableEq

inductive MdbError where
  | noTable
  | exportFailed
deriving DecidableEq

deriving instance DecidableEq for Except

def keywordMatch (t : String) : Bool :=
  ["embalse", "presa", "pantano"].any
    (fun k => containsSub (lowerChars t.data) k.data)

/-- `next((t for t in tablas if ...), tablas[0] if tablas else None)`. -/
def elegirTabla (tablas : List String) : Option String :=
  match tablas.find? keywordMatch with
  | some t => some t
  | none => tablas.head?

/-- `parsear_mdb_linux`: the boolean is whether the temporary `.mdb`
file still exists when the call exits.  The file exists on entry;
`os.unlink` is reached only after the export succeeded and its csv
was read, and a failed unlink is swallowed. -/
def parsearMdbLinux (env : MdbEnv) : Except MdbError DataFrame × Bool :=
  match elegirTabla env.tablas with
  | none => (.error .noTable, true)
  | some _ =>
    if env.exportOk then (.ok env.exported, false)
    else (.error .exportFailed, true)

/-! ## Read-API row formatting (`api.py`) -/

def parseUnsignedDec? (l : List Char) : Option ℚ :=
  let ip := l.takeWhile Char.isDigit
  let rest := l.dropWhile Char.isDigit
  match rest with
  | [] => if ip.isEmpty then none else some (Rat.divInt (natDigits ip : ℤ) 1)
  | '.' :: fr =>
    let fp := fr.takeWhile Char.isDigit
    let rest2 := fr.dropWhile Char.isDigit
    if rest2.isEmpty && !(ip.isEmpty && fp.isEmpty) then
      some (Rat.divInt ((natDigits ip : ℤ) * pow10 fp.length + (natDigits fp : ℤ))
        (pow10 fp.length))
    else none
  | _ => none

/-- Python `float(s)` on a plain decimal literal (whitespace
stripped, optional sign, optional fractional part).  Exponent
notation and the textual IEEE specials are outside the modelled
scope. -/
def parseDecimal? (l : List Char) : Option ℚ :=
  match trimChars l with
  | '+' :: r => parseUnsignedDec? r
  | '-' :: r => (parseUnsignedDec? r).map qNeg
  | r => parseUnsignedDec? r

/-- `limpiar_numero`: `float(str(valor).replace(",", "."))`, `None`
on `None` input or on a conversion failure. -/
def limpiarNumero : Val → Option ℚ
  | .null => none
  | .num q => some q
  | .inf => none
  | .ninf => none
  | .str s =>
    parseDecimal? (s.data.map (fun c => if c == ',' then '.' else c))

/-- `row.get(k)`: `None` when the key is absent. -/
def getRowVal (row : List (String × Val)) (k : String) : Val :=
  (row.lookup k).getD .null

/-- Python truthiness of a cell, for `bool(row.get("ELECTRICO_FLAG"))`. -/
def truthyVal : Val → Bool
  | .null => false
  | .num q => decide (q ≠ 0)
  | .inf => true
  | .ninf => true
  | .str s => !s.isEmpty

/-- The dict returned by `formato_embalse`. -/
structure EmbalseOut where
  nombre : Val
  cuenca : Val
  fecha : Val
  capacidad_hm3 : Option ℚ
  volumen_hm3 : Option ℚ
  porcentaje : Option ℚ
  electrico : Bool
deriving DecidableEq

/-- `formato_embalse` of `api.py`.  The guard mirrors
`total and actual and total > 0`: both values parsed (not `None`),
both nonzero (Python treats `0.0` as falsy), and the total strictly
positive. -/
def formatoEmbalse (row : List (String × Val)) : EmbalseOut :=
  let total := limpiarNumero (getRowVal row "AGUA_TOTAL")
  let actual := limpiarNumero (getRowVal row "AGUA_ACTUAL")
  let pct : Option ℚ :=
    match total, actual with
    | some t, some a =>
      if t ≠ 0 ∧ a ≠ 0 ∧ 0 < t then some (roundTo 1 (qMulInt (qDiv a t) 100))
      else none
    | _, _ => none
  { nombre := getRowVal row "EMBALSE_NOMBRE"
    cuenca := getRowVal row "AMBITO_NOMBRE"
    fecha := getRowVal row "fecha"
    capacidad_hm3 := total
    volumen_hm3 := actual
    porcentaje := pct
    electrico := truthyVal (getRowVal row "ELECTRICO_FLAG") }

/-! ## General lemmas -/

theorem ltChars_irrefl (l : List Char) : ltChars l l = false := by
  induction l with
  | nil => rfl
  | cons a as ih => simp [ltChars, ih]

theorem ltChars_asymm :
    ∀ (a b : List Char), ltChars a b = true → ltChars b a = false := by
  intro a
  induction a with
  | nil =>
    intro b h
    cases b with
    | nil => simp [ltChars] at h
    | cons y ys => rfl
  | cons x xs ih =>
    intro b h
    cases b with
    | nil => simp [ltChars] at h
    | cons y ys =>
      simp only [ltChars] at h ⊢
      rcases Nat.lt_trichotomy x.toNat y.toNat with hlt | heq | hgt
      · rw [if_neg (by omega), if_pos hlt]
      · rw [if_neg (by omega), if_neg (by omega)] at h
        rw [if_neg (by omega), if_neg (by omega)]
        exact ih ys h
      · rw [if_neg (by omega), if_pos hgt] at h
        exact absurd h (by simp)

theorem ltChars_false_trans :
    ∀ (a b c : List Char), ltChars b a = false → ltChars c b = false →
      ltChars c a = false := by
  intro a
  induction a with
  | nil =>
    intro b c _ _
    cases c with
    | nil => rfl
    | cons z zs => rfl
  | cons x xs ih =>
    intro b c h1 h2
    cases b with
    | nil => simp [ltChars] at h1
    | cons y ys =>
      cases c with
      | nil => simp [ltChars] at h2
      | cons z zs =>
        simp only [ltChars] at h1 h2 ⊢
        rcases Nat.lt_trichotomy y.toNat x.toNat with hyx | hyx | hyx
        · rw [if_pos hyx] at h1
          exact absurd h1 (by simp)
        · rcases Nat.lt_trichotomy z.toNat y.toNat with hzy | hzy | hzy
          · rw [if_pos hzy] at h2
            exact absurd h2 (by simp)
          · rw [if_neg (by omega), if_neg (by omega)] at h1
            rw [if_neg (by omega), if_neg (by omega)] at h2
            rw [if_neg (by omega), if_neg (by omega)]
            exact ih ys zs h1 h2
          · rw [if_neg (by omega), if_pos (by omega)]
        · rcases Nat.lt_trichotomy z.toNat y.toNat with hzy | hzy | hzy
          · rw [if_pos hzy] at h2
            exact absurd h2 (by simp)
          · rw [if_neg (by omega), if_pos (by omega)]
          · rw [if_neg (by omega), if_pos (by omega)]

theorem maxStr_eq_none : ∀ {l : List String}, maxStr l = none ↔ l = [] := by
  intro l
  cases l with
  | nil => simp [maxStr]
  | cons s rest =>
    simp only [maxStr]
    cases hr : maxStr rest <;> simp

theorem maxStr_mem : ∀ {l : List String} {m : String}, maxStr l = some m → m ∈ l := by
  intro l
  induction l with
  | nil => intro m h; simp [maxStr] at h
  | cons s rest ih =>
    intro m h
    simp only [maxStr] at h
    cases hr : maxStr rest with
    | none =>
      rw [hr] at h
      simp only [Option.some.injEq] at h
      simp [h]
    | some m0 =>
      rw [hr] at h
      simp only [Option.some.injEq] at h
      by_cases hlt : ltStr s m0 = true
      · rw [if_pos hlt] at h
        subst h
        exact List.mem_cons_of_mem _ (ih hr)
      · rw [if_neg hlt] at h
        subst h
        exact List.mem_cons_self _ _

theorem maxStr_le :
    ∀ {l : List String} {x m : String}, x ∈ l → maxStr l = some m →
      ltChars m.data x.data = false := by
  intro l
  induction l with
  | nil => intro x m hx _; simp at hx
  | cons s rest ih =>
    intro x m hx h
    simp only [maxStr] at h
    cases hr : maxStr rest with
    | none =>
      rw [hr] at h
      simp only [Option.some.injEq] at h
      rw [maxStr_eq_none.mp hr] at hx
      simp only [List.mem_singleton] at hx
      subst h; subst hx
      exact ltChars_irrefl _
    | some m0 =>
      rw [hr] at h
      simp only [Option.some.injEq] at h
      rcases List.mem_cons.mp hx with rfl | hx'
      · by_cases hlt : ltStr x m0 = true
        · rw [if_pos hlt] at h
          subst h
          exact ltChars_asymm _ _ hlt
        · rw [if_neg hlt] at h
          subst h
          exact ltChars_irrefl _
      · have hx0 : ltChars m0.data x.data = false := ih hx' hr
        by_cases hlt : ltStr s m0 = true
        · rw [if_pos hlt] at h
          subst h
          exact hx0
        · rw [if_neg hlt] at h
          subst h
          have hsm : ltChars s.data m0.data = false := by
            simpa [ltStr] using hlt
          exact ltChars_false_trans _ _ _ hx0 hsm

theorem lookup_metaUpsert_self :
    ∀ (m : List (String × String)) (k v : String),
      (metaUpsert m k v).lookup k = some v := by
  intro m
  induction m with
  | nil => intro k v; simp [metaUpsert, List.lookup]
  | cons p ps ih =>
    intro k v
    simp only [metaUpsert]
    by_cases h : (p.1 == k) = true
    · rw [if_pos h]
      simp [List.lookup]
    · rw [if_neg h]
      have hne : (k == p.1) = false := by
        rw [beq_eq_false_iff_ne]
        simp only [beq_iff_eq] at h
        exact fun he => h he.symm
      simp [List.lookup, hne, ih]

theorem lookup_metaUpsert_ne :
    ∀ (m : List (String × String)) {k k' : String} (v : String), k' ≠ k →
      (metaUpsert m k v).lookup k' = m.lookup k' := by
  intro m
  induction m with
  | nil =>
    intro k k' v hne
    have h1 : (k' == k) = false := beq_eq_false_iff_ne.mpr hne
    simp [metaUpsert, List.lookup, h1]
  | cons p ps ih =>
    intro k k' v hne
    simp only [metaUpsert]
    by_cases h : (p.1 == k) = true
    · rw [if_pos h]
      have hpk : p.1 = k := by simpa using h
      have h1 : (k' == k) = false := beq_eq_false_iff_ne.mpr hne
      have h2 : (k' == p.1) = false := by
        rw [beq_eq_false_iff_ne, hpk]; exact hne
      simp [List.lookup, h1, h2]
    · rw [if_neg h]
      by_cases hk : (k' == p.1) = true
      · simp [List.lookup, hk]
      · have hk' : (k' == p.1) = false := by
          simpa using hk
        simp [List.lookup, hk', ih _ hne]

theorem mem_keys_metaUpsert :
    ∀ (m : List (String × String)) (k v x : String),
      x ∈ (metaUpsert m k v).map Prod.fst → x ∈ m.map Prod.fst ∨ x = k := by
  intro m
  induction m with
  | nil =>
    intro k v x hx
    simp only [metaUpsert, List.map_cons, List.map_nil, List.mem_singleton] at hx
    exact Or.inr hx
  | cons p ps ih =>
    intro k v x hx
    simp only [metaUpsert] at hx
    by_cases h : (p.1 == k) = true
    · rw [if_pos h] at hx
      simp only [List.map_cons, List.mem_cons] at hx
      rcases hx with rfl | hx
      · exact Or.inr rfl
      · exact Or.inl (by simp [List.mem_cons]; right; simpa using hx)
    · rw [if_neg h] at hx
      simp only [List.map_cons, List.mem_cons] at hx
      rcases hx with rfl | hx
      · exact Or.inl (by simp)
      · rcases ih k v x hx with hmem | rfl
        · exact Or.inl (by simp only [List.map_cons, List.mem_cons]; right; exact hmem)
        · exact Or.inr rfl

theorem keys_nodup_metaUpsert :
    ∀ (m : List (String × String)) (k v : String),
      (m.map Prod.fst).Nodup → ((metaUpsert m k v).map Prod.fst).Nodup := by
  intro m
  induction m with
  | nil => intro k v _; simp [metaUpsert]
  | cons p ps ih =>
    intro k v h
    simp only [List.map_cons, List.nodup_cons] at h
    simp only [metaUpsert]
    by_cases hk : (p.1 == k) = true
    · rw [if_pos hk]
      have hpk : p.1 = k := by simpa using hk
      subst hpk
      simp only [List.map_cons, List.nodup_cons]
      exact h
    · rw [if_neg hk]
      simp only [List.map_cons, List.nodup_cons]
      refine ⟨?_, ih k v h.2⟩
      intro hmem
      rcases mem_keys_metaUpsert ps k v p.1 hmem with hm | he
      · exact h.1 hm
      · exact absurd he (by simpa using hk)

theorem qMulInt_eq (q : ℚ) (n : ℤ) : qMulInt q n = q * (n : ℚ) := by
  rw [qMulInt, Rat.divInt_eq_div]
  push_cast
  rw [mul_div_right_comm, Rat.num_div_den]

theorem qDiv_eq (a b : ℚ) : qDiv a b = a / b := by
  rcases eq_or_ne b 0 with rfl | hb
  · simp [qDiv, Rat.divInt_zero]
  · have hbn : (b.num : ℚ) ≠ 0 := by
      exact_mod_cast Rat.num_ne_zero.mpr hb
    have hbd : ((b.den : ℚ)) ≠ 0 := by
      exact_mod_cast b.den_nz
    have had : ((a.den : ℚ)) ≠ 0 := by
      exact_mod_cast a.den_nz
    have ha : (a.num : ℚ) = a * a.den := by
      have h := Rat.num_div_den a
      rwa [div_eq_iff had] at h
    have hbq : (b.num : ℚ) = b * b.den := by
      have h := Rat.num_div_den b
      rwa [div_eq_iff hbd] at h
    rw [qDiv, Rat.divInt_eq_div]
    push_cast
    rw [div_eq_div_iff (mul_ne_zero had hbn) hb, ha, hbq]
    ring

theorem guardarDb_embalses (df : DataFrame) (st : DBState) (now : String) :
    (guardarDb df st now).embalses = some df := rfl

theorem guardarDb_lookup_total (df : DataFrame) (st : DBState) (now : String) :
    (guardarDb df st now).meta.lookup "total_registros"
      = some (toString df.rows.length) := by
  show (metaUpsert (metaUpsert st.meta "ultima_actualizacion" now)
      "total_registros" (toString df.rows.length)).lookup "total_registros" = _
  exact lookup_metaUpsert_self _ _ _

theorem guardarDb_lookup_ultima (df : DataFrame) (st : DBState) (now : String) :
    (guardarDb df st now).meta.lookup "ultima_actualizacion" = some now := by
  show (metaUpsert (metaUpsert st.meta "ultima_actualizacion" now)
      "total_registros" (toString df.rows.length)).lookup "ultima_actualizacion" = _
  rw [lookup_metaUpsert_ne _ _ (by decide)]
  exact lookup_metaUpsert_self _ _ _

theorem normalizar_length (df : DataFrame) :
    (normalizar df).rows.length = df.rows.length := by
  simp only [normalizar]
  split <;> split_ifs <;> simp

theorem ltStr_ne {a b : String} (h : ltStr a b = true) : a ≠ b := by
  intro he
  subst he
  rw [ltStr, ltChars_irrefl] at h
  exact absurd h (by simp)

/-! ## The claims -/

/-- C1, counterexample: a raw row whose date value is `"not-a-date"`
does appear in the persisted table after normalization and commit;
its date is coerced to null, the row itself is not dropped. -/
theorem c1_counterexample :
    (guardarDb (normalizar ⟨["NOMBRE", "FECHA"],
        [[.str "Presa X", .str "not-a-date"]]⟩)
      ⟨none, false, []⟩ "2026-10-12T00:00:00").embalses
      = some ⟨["nombre", "fecha"], [[.str "Presa X", .null]]⟩ := by decide

/-- C1, amended: a raw row with an unparseable date is persisted with
a null `fecha` rather than excluded: `normalizar` coerces any
unparseable date string to null, preserves the row count, and
`guardar_db` stores every normalized row. -/
theorem c1_amended_rows_persisted (df : DataFrame) (st : DBState) (now : String) :
    (guardarDb (normalizar df) st now).embalses = some (normalizar df) ∧
    (normalizar df).rows.length = df.rows.length ∧
    (∀ s : String, parseIsoDate s = none → parseFecha (.str s) = .null) := by
  refine ⟨rfl, normalizar_length df, fun s hs => ?_⟩
  simp [parseFecha, hs]

/-- C1, amended, witness at a concrete unparseable date. -/
theorem c1_amended_rows_persisted_witness :
    (normalizar ⟨["NOMBRE", "FECHA"], [[.str "Presa X", .str "not-a-date"]]⟩).rows.length
        = 1 ∧
    parseFecha (.str "not-a-date") = .null :=
  ⟨(c1_amended_rows_persisted ⟨["NOMBRE", "FECHA"],
      [[.str "Presa X", .str "not-a-date"]]⟩ ⟨none, false, []⟩ "T").2.1,
   (c1_amended_rows_persisted ⟨["NOMBRE", "FECHA"],
      [[.str "Presa X", .str "not-a-date"]]⟩ ⟨none, false, []⟩ "T").2.2
     "not-a-date" (by decide)⟩

/-- C2, counterexample: with both operands present and capacity 0,
the derived `porcentaje` is positive infinity, not null. -/
theorem c2_counterexample :
    normalizar ⟨["VOLUMEN", "CAPACIDAD"], [[.num 91, .num 0]]⟩
      = ⟨["volumen_hm3", "capacidad_hm3", "porcentaje"],
          [[.num 91, .num 0, .inf]]⟩ ∧
    Val.inf ≠ Val.null := by decide

/-- C2, amended: when `porcentaje` is absent and both operands are
present, the derivation always runs with no positivity guard, using
IEEE division semantics: a zero capacity yields positive infinity for
a positive volume, negative infinity for a negative one, and null
(NaN, stored as NULL) for 0/0. -/
theorem c2_amended_derivation (v c : Val) :
    (normalizar ⟨["VOLUMEN", "CAPACIDAD"], [[v, c]]⟩).rows
      = [[v, c, roundVal 2 (mul100 (divVal v c))]] ∧
    (∀ a : ℚ, 0 < a → divVal (.num a) (.num 0) = .inf) ∧
    (∀ a : ℚ, a < 0 → divVal (.num a) (.num 0) = .ninf) ∧
    divVal (.num 0) (.num 0) = .null := by
  refine ⟨rfl, fun a ha => ?_, fun a ha => ?_, ?_⟩
  · simp [divVal, ha]
  · simp [divVal, ha, ha.not_lt]
  · simp [divVal]

/-- C2, amended, witness at volume 91 and capacity 0. -/
theorem c2_amended_derivation_witness :
    (normalizar ⟨["VOLUMEN", "CAPACIDAD"], [[.num 91, .num 0]]⟩).rows
      = [[.num 91, .num 0, roundVal 2 (mul100 (divVal (.num 91) (.num 0)))]] ∧
    divVal (.num 91) (.num 0) = .inf :=
  ⟨(c2_amended_derivation (.num 91) (.num 0)).1,
   (c2_amended_derivation (.num 91) (.num 0)).2.1 91 (by norm_num)⟩

theorem fechaKey_eq_some (df : DataFrame) (n : String) (r : List Val) (f : String) :
    fechaKey df n r = some f ↔ nombreDe df r = .str n ∧ fechaDe df r = .str f := by
  unfold fechaKey
  cases hn : nombreDe df r <;> cases hf : fechaDe df r <;>
    simp_all

theorem enVista_true_iff (df : DataFrame) (r : List Val) :
    enVista df r = true ↔ ∃ n f : String, nombreDe df r = .str n ∧
      fechaDe df r = .str f ∧ maxFechaFor df n = some f := by
  unfold enVista
  cases hn : nombreDe df r <;> cases hf : fechaDe df r <;> simp_all

/-- C3, counterexample: two identical rows at the same (maximal) date
are both committed, and the latest-per-entity view then holds two
rows for the entity, not exactly one. -/
theorem c3_counterexample :
    (guardarDb ⟨["nombre", "fecha"],
        [[.str "A", .str "2024-01-01"], [.str "A", .str "2024-01-01"]]⟩
      ⟨none, false, []⟩ "2026-10-12T00:00:00").embalses
      = some ⟨["nombre", "fecha"],
          [[.str "A", .str "2024-01-01"], [.str "A", .str "2024-01-01"]]⟩ ∧
    vistaUltimo ⟨["nombre", "fecha"],
        [[.str "A", .str "2024-01-01"], [.str "A", .str "2024-01-01"]]⟩
      = [[.str "A", .str "2024-01-01"], [.str "A", .str "2024-01-01"]] := by
  exact ⟨rfl, by decide⟩

/-- C3, amended: every view row of an entity carries that entity's
maximal date, and every entity with at least one non-null date is
represented in the view; but the view holds every row attaining the
maximum, so ties at the maximal date produce several rows rather
than exactly one. -/
theorem c3_amended_view_max (df : DataFrame) (n f : String) :
    (∀ r ∈ vistaUltimo df, ∀ g : String, nombreDe df r = .str n →
        fechaDe df r = .str g → maxFechaFor df n = some g) ∧
    ((∃ r ∈ df.rows, nombreDe df r = .str n ∧ fechaDe df r = .str f) →
      ∃ r ∈ vistaUltimo df, nombreDe df r = .str n ∧
        ∃ m : String, fechaDe df r = .str m ∧ maxFechaFor df n = some m ∧
          leStr f m = true) := by
  constructor
  · intro r hr g hn hf
    have hv := (List.mem_filter.mp hr).2
    rcases (enVista_true_iff df r).mp hv with ⟨n', f', hn', hf', hm⟩
    rw [hn] at hn'
    rw [hf] at hf'
    cases hn'
    cases hf'
    exact hm
  · rintro ⟨r0, hr0, hn0, hf0⟩
    have hfmem : f ∈ fechasFor df n :=
      List.mem_filterMap.mpr ⟨r0, hr0, (fechaKey_eq_some df n r0 f).mpr ⟨hn0, hf0⟩⟩
    cases hm : maxFechaFor df n with
    | none =>
      rw [maxFechaFor, maxStr_eq_none] at hm
      rw [hm] at hfmem
      exact absurd hfmem (List.not_mem_nil _)
    | some m =>
      have hmmem : m ∈ fechasFor df n := maxStr_mem hm
      rcases List.mem_filterMap.mp hmmem with ⟨r1, hr1, hk1⟩
      rcases (fechaKey_eq_some df n r1 m).mp hk1 with ⟨hn1, hf1⟩
      refine ⟨r1, ?_, hn1, m, hf1, rfl, ?_⟩
      · refine List.mem_filter.mpr ⟨hr1, ?_⟩
        exact (enVista_true_iff df r1).mpr ⟨n, m, hn1, hf1, hm⟩
      · have hle : ltChars m.data f.data = false := maxStr_le hfmem hm
        simp [leStr, ltStr, hle]

/-- C3, amended, witness: in a two-row snapshot for one entity, the
entity appears in the view at its maximal date. -/
theorem c3_amended_view_max_witness :
    ∃ r ∈ vistaUltimo ⟨["nombre", "fecha"],
        [[.str "A", .str "2024-01-01"], [.str "A", .str "2024-02-01"]]⟩,
      nombreDe ⟨["nombre", "fecha"],
        [[.str "A", .str "2024-01-01"], [.str "A", .str "2024-02-01"]]⟩ r = .str "A" ∧
      ∃ m : String, fechaDe ⟨["nombre", "fecha"],
            [[.str "A", .str "2024-01-01"], [.str "A", .str "2024-02-01"]]⟩ r = .str m ∧
        maxFechaFor ⟨["nombre", "fecha"],
            [[.str "A", .str "2024-01-01"], [.str "A", .str "2024-02-01"]]⟩ "A" = some m ∧
        leStr "2024-01-01" m = true :=
  (c3_amended_view_max ⟨["nombre", "fecha"],
      [[.str "A", .str "2024-01-01"], [.str "A", .str "2024-02-01"]]⟩ "A" "2024-01-01").2
    ⟨[.str "A", .str "2024-01-01"], by decide, by decide, by decide⟩

/-- C4, counterexample: mid-commit failures do not restore the prior
snapshot.  When the row inserts fail (statement 3) the reader sees an
empty new table — the old snapshot is already destroyed and the new
one is only partially materialized; when the first metadata upsert
fails (statement 7) the reader sees the fully written new table with
the previous metadata, a mixture of old and new state. -/
theorem c4_counterexample :
    (guardarDbAt ⟨["nombre", "fecha"], [[.str "A", .str "2024-02-01"]]⟩
        ⟨some ⟨["nombre", "fecha"], [[.str "A", .str "2024-01-01"]]⟩, true,
          [("ultima_actualizacion", "2026-01-01T00:00:00"), ("total_registros", "1")]⟩
        "2026-10-12T00:00:00" 3).embalses
      = some ⟨["nombre", "fecha"], []⟩ ∧
    some (⟨["nombre", "fecha"], []⟩ : DataFrame)
      ≠ some (⟨["nombre", "fecha"], [[.str "A", .str "2024-01-01"]]⟩ : DataFrame) ∧
    (guardarDbAt ⟨["nombre", "fecha"], [[.str "A", .str "2024-02-01"]]⟩
        ⟨some ⟨["nombre", "fecha"], [[.str "A", .str "2024-01-01"]]⟩, true,
          [("ultima_actualizacion", "2026-01-01T00:00:00"), ("total_registros", "1")]⟩
        "2026-10-12T00:00:00" 7).embalses
      = some ⟨["nombre", "fecha"], [[.str "A", .str "2024-02-01"]]⟩ ∧
    (guardarDbAt ⟨["nombre", "fecha"], [[.str "A", .str "2024-02-01"]]⟩
        ⟨some ⟨["nombre", "fecha"], [[.str "A", .str "2024-01-01"]]⟩, true,
          [("ultima_actualizacion", "2026-01-01T00:00:00"), ("total_registros", "1")]⟩
        "2026-10-12T00:00:00" 7).meta
      = [("ultima_actualizacion", "2026-01-01T00:00:00"), ("total_registros", "1")] ∧
    some (⟨["nombre", "fecha"], [[.str "A", .str "2024-02-01"]]⟩ : DataFrame)
      ≠ some (⟨["nombre", "fecha"], [[.str "A", .str "2024-01-01"]]⟩ : DataFrame) := by
  decide

/-- C4, amended: the replace is not atomic and only a failure before
the initial `DROP TABLE` takes effect leaves the previous snapshot
intact.  The drops and creates are DDL that autocommit at once on a
raw sqlite3 connection and the row inserts roll back only to the
freshly created empty table, so a failure during the table write
leaves no table (statement 2) or an empty new table (statement 3);
a failure after the table write leaves the new table durably visible
with the old view and metadata (statement 4), with the view dropped
and not yet recreated (statement 5), or with the rebuilt view and
the old metadata (statements 6 to 9, the meta upserts being the only
writes still pending at `con.commit()`). -/
theorem c4_amended_commit_points (df : DataFrame) (st : DBState) (now : String)
    (k : Nat) :
    (k ≤ 1 → guardarDbAt df st now k = st) ∧
    (k = 2 → (guardarDbAt df st now k).embalses = none ∧
      (guardarDbAt df st now k).meta = st.meta) ∧
    (k = 3 → (guardarDbAt df st now k).embalses = some ⟨df.cols, []⟩ ∧
      (guardarDbAt df st now k).meta = st.meta) ∧
    (k = 4 → (guardarDbAt df st now k).embalses = some df ∧
      (guardarDbAt df st now k).vista = st.vista ∧
      (guardarDbAt df st now k).meta = st.meta) ∧
    (k = 5 → (guardarDbAt df st now k).embalses = some df ∧
      (guardarDbAt df st now k).vista = false ∧
      (guardarDbAt df st now k).meta = st.meta) ∧
    (6 ≤ k → k ≤ 9 → (guardarDbAt df st now k).embalses = some df ∧
      (guardarDbAt df st now k).vista
        = (df.cols.contains "fecha" && df.cols.contains "nombre") ∧
      (guardarDbAt df st now k).meta = st.meta) ∧
    (10 ≤ k → guardarDbAt df st now k = guardarDb df st now) := by
  refine ⟨fun h => ?_, fun h => ?_, fun h => ?_, fun h => ?_, fun h => ?_,
    fun h6 h9 => ?_, fun h => ?_⟩
  · rw [guardarDbAt, if_pos h]
  · subst h; exact ⟨rfl, rfl⟩
  · subst h; exact ⟨rfl, rfl⟩
  · subst h; exact ⟨rfl, rfl, rfl⟩
  · subst h; exact ⟨rfl, rfl, rfl⟩
  · rw [guardarDbAt, if_neg (by omega), if_neg (by omega), if_neg (by omega),
      if_neg (by omega), if_neg (by omega), if_pos h9]
    exact ⟨rfl, rfl, rfl⟩
  · rw [guardarDbAt, if_neg (by omega), if_neg (by omega), if_neg (by omega),
      if_neg (by omega), if_neg (by omega), if_neg (by omega)]

/-- C4, amended, witness at the failure regimes: untouched before the
drop, empty table after a failed insert, new table with old metadata
at a failed meta upsert, and the full commit. -/
theorem c4_amended_commit_points_witness :
    guardarDbAt ⟨["a"], [[.str "x"]]⟩ ⟨none, false, []⟩ "T" 1 = ⟨none, false, []⟩ ∧
    (guardarDbAt ⟨["a"], [[.str "x"]]⟩ ⟨none, false, []⟩ "T" 3).embalses
      = some ⟨["a"], []⟩ ∧
    (guardarDbAt ⟨["a"], [[.str "x"]]⟩ ⟨none, false, []⟩ "T" 7).embalses
      = some ⟨["a"], [[.str "x"]]⟩ ∧
    guardarDbAt ⟨["a"], [[.str "x"]]⟩ ⟨none, false, []⟩ "T" 10
      = guardarDb ⟨["a"], [[.str "x"]]⟩ ⟨none, false, []⟩ "T" :=
  ⟨(c4_amended_commit_points ⟨["a"], [[.str "x"]]⟩ ⟨none, false, []⟩ "T" 1).1
     (by norm_num),
   ((c4_amended_commit_points ⟨["a"], [[.str "x"]]⟩ ⟨none, false, []⟩ "T" 3).2.2.1
     rfl).1,
   ((c4_amended_commit_points ⟨["a"], [[.str "x"]]⟩ ⟨none, false, []⟩ "T"
     7).2.2.2.2.2.1 (by norm_num) (by norm_num)).1,
   (c4_amended_commit_points ⟨["a"], [[.str "x"]]⟩ ⟨none, false, []⟩ "T"
     10).2.2.2.2.2.2 (by norm_num)⟩

/-- C5: an archive with neither a spreadsheet nor a legacy-database
entry makes the run abort with the unsupported-format error carrying
the full entry-name list, and the database state is left untouched. -/
theorem c5_unsupported_format (entries : List (String × DataFrame))
    (st : DBState) (now : String)
    (h : ∀ n ∈ entries.map Prod.fst, isExcelName n = false ∧ isMdbName n = false) :
    mainModel entries st now
      = (.error (.unsupported (entries.map Prod.fst)), st) := by
  have hex : (entries.map Prod.fst).filter isExcelName = [] :=
    List.filter_eq_nil_iff.mpr (fun n hn => by simp [(h n hn).1])
  have hmd : (entries.map Prod.fst).filter isMdbName = [] :=
    List.filter_eq_nil_iff.mpr (fun n hn => by simp [(h n hn).2])
  have hsel : seleccionar (entries.map Prod.fst)
      = .unsupported (entries.map Prod.fst) := by
    unfold seleccionar
    rw [hex, hmd]
  simp only [mainModel, hsel]

/-- C5, witness: an archive holding only a `.txt` entry. -/
theorem c5_unsupported_format_witness :
    mainModel [("datos.txt", ⟨["A"], [[.str "x"]]⟩)] ⟨none, false, []⟩ "T"
      = (.error (.unsupported ["datos.txt"]), ⟨none, false, []⟩) :=
  c5_unsupported_format [("datos.txt", ⟨["A"], [[.str "x"]]⟩)] ⟨none, false, []⟩ "T"
    (by decide)

/-- C6: when any spreadsheet entry is present the extractor selects a
spreadsheet entry (the first one), and the legacy-database branch is
reached only when no entry has a spreadsheet extension. -/
theorem c6_format_preference (nombres : List String) :
    ((∃ n ∈ nombres, isExcelName n = true) →
      ∃ m, seleccionar nombres = .excel m ∧ isExcelName m = true ∧ m ∈ nombres) ∧
    (∀ m, seleccionar nombres = .mdb m → ∀ n ∈ nombres, isExcelName n = false) := by
  constructor
  · rintro ⟨n, hn, hex⟩
    cases hf : nombres.filter isExcelName with
    | nil =>
      exfalso
      have hnone := List.filter_eq_nil_iff.mp hf n hn
      simp [hex] at hnone
    | cons m rest =>
      have hmem : m ∈ nombres.filter isExcelName := by
        rw [hf]; exact List.mem_cons_self m rest
      refine ⟨m, ?_, (List.mem_filter.mp hmem).2, (List.mem_filter.mp hmem).1⟩
      unfold seleccionar
      rw [hf]
  · intro m hm n hn
    unfold seleccionar at hm
    cases hf : nombres.filter isExcelName with
    | nil =>
      by_contra hex
      have hex' : isExcelName n = true := by simpa using hex
      have hnone := List.filter_eq_nil_iff.mp hf n hn
      simp [hex'] at hnone
    | cons m0 rest =>
      rw [hf] at hm
      simp at hm

/-- C6, witness: an archive holding both kinds selects the
spreadsheet entry. -/
theorem c6_format_preference_witness :
    ∃ m, seleccionar ["BD-Embalses.mdb", "BD-Embalses.xlsx"] = .excel m ∧
      isExcelName m = true ∧ m ∈ ["BD-Embalses.mdb", "BD-Embalses.xlsx"] :=
  (c6_format_preference ["BD-Embalses.mdb", "BD-Embalses.xlsx"]).1
    ⟨"BD-Embalses.xlsx", by decide, by decide⟩

/-- C7, counterexample: when the external `mdb-export` call fails,
the legacy-database parse path exits with the temporary file still
present — the deletion is reached only on the success path. -/
theorem c7_counterexample :
    parsearMdbLinux ⟨["Embalses1988"], false, ⟨[], []⟩⟩
      = (.error .exportFailed, true) := by decide

/-- C7, amended: the temporary file is deleted when the export
succeeds and the table read completes, but on the failure exit paths
(no table found, external export failed) the call exits with the
temporary file still existing. -/
theorem c7_amended_cleanup (env : MdbEnv) :
    (env.exportOk = true → ∀ t, elegirTabla env.tablas = some t →
      parsearMdbLinux env = (.ok env.exported, false)) ∧
    (env.exportOk = false → ∀ t, elegirTabla env.tablas = some t →
      parsearMdbLinux env = (.error .exportFailed, true)) ∧
    (elegirTabla env.tablas = none →
      parsearMdbLinux env = (.error .noTable, true)) := by
  refine ⟨fun hok t ht => ?_, fun hko t ht => ?_, fun ht => ?_⟩
  · simp only [parsearMdbLinux, ht, hok, if_true]
  · simp only [parsearMdbLinux, ht, hko]
    simp
  · simp only [parsearMdbLinux, ht]

/-- C7, amended, witness on the success path and the export-failure
path. -/
theorem c7_amended_cleanup_witness :
    parsearMdbLinux ⟨["Embalses1988"], true, ⟨["A"], [[.str "x"]]⟩⟩
      = (.ok ⟨["A"], [[.str "x"]]⟩, false) ∧
    parsearMdbLinux ⟨["Datos1988"], false, ⟨[], []⟩⟩
      = (.error .exportFailed, true) :=
  ⟨(c7_amended_cleanup ⟨["Embalses1988"], true, ⟨["A"], [[.str "x"]]⟩⟩).1
     rfl "Embalses1988" (by decide),
   (c7_amended_cleanup ⟨["Datos1988"], false, ⟨[], []⟩⟩).2.1
     rfl "Datos1988" (by decide)⟩

/-- C8: running normalization plus commit twice from the same parsed
artifact leaves the persisted table identical after the second run,
keeps `total_registros` unchanged, and advances
`ultima_actualizacion` from the first wall-clock stamp to the later
second one. -/
theorem c8_idempotence (df : DataFrame) (st0 : DBState) (t1 t2 : String)
    (h : ltStr t1 t2 = true) :
    (pipelineRun df (pipelineRun df st0 t1) t2).embalses
        = (pipelineRun df st0 t1).embalses ∧
    (pipelineRun df (pipelineRun df st0 t1) t2).meta.lookup "total_registros"
        = (pipelineRun df st0 t1).meta.lookup "total_registros" ∧
    (pipelineRun df st0 t1).meta.lookup "ultima_actualizacion" = some t1 ∧
    (pipelineRun df (pipelineRun df st0 t1) t2).meta.lookup "ultima_actualizacion"
        = some t2 ∧
    t1 ≠ t2 := by
  refine ⟨rfl, ?_, ?_, ?_, ltStr_ne h⟩
  · show (guardarDb (normalizar df) _ t2).meta.lookup "total_registros"
      = (guardarDb (normalizar df) _ t1).meta.lookup "total_registros"
    rw [guardarDb_lookup_total, guardarDb_lookup_total]
  · exact guardarDb_lookup_ultima _ _ _
  · exact guardarDb_lookup_ultima _ _ _

/-- C8, witness at a concrete frame and two ordered timestamps. -/
theorem c8_idempotence_witness :
    ltStr "2026-10-05T00:00:00" "2026-10-12T00:00:00" = true ∧
    ((pipelineRun ⟨["NOMBRE", "FECHA"], [[.str "A", .str "2024-01-01"]]⟩
        (pipelineRun ⟨["NOMBRE", "FECHA"], [[.str "A", .str "2024-01-01"]]⟩
          ⟨none, false, []⟩ "2026-10-05T00:00:00") "2026-10-12T00:00:00").embalses
      = (pipelineRun ⟨["NOMBRE", "FECHA"], [[.str "A", .str "2024-01-01"]]⟩
          ⟨none, false, []⟩ "2026-10-05T00:00:00").embalses ∧
     (pipelineRun ⟨["NOMBRE", "FECHA"], [[.str "A", .str "2024-01-01"]]⟩
        (pipelineRun ⟨["NOMBRE", "FECHA"], [[.str "A", .str "2024-01-01"]]⟩
          ⟨none, false, []⟩ "2026-10-05T00:00:00") "2026-10-12T00:00:00").meta.lookup
        "total_registros"
      = (pipelineRun ⟨["NOMBRE", "FECHA"], [[.str "A", .str "2024-01-01"]]⟩
          ⟨none, false, []⟩ "2026-10-05T00:00:00").meta.lookup "total_registros" ∧
     (pipelineRun ⟨["NOMBRE", "FECHA"], [[.str "A", .str "2024-01-01"]]⟩
        ⟨none, false, []⟩ "2026-10-05T00:00:00").meta.lookup "ultima_actualizacion"
      = some "2026-10-05T00:00:00" ∧
     (pipelineRun ⟨["NOMBRE", "FECHA"], [[.str "A", .str "2024-01-01"]]⟩
        (pipelineRun ⟨["NOMBRE", "FECHA"], [[.str "A", .str "2024-01-01"]]⟩
          ⟨none, false, []⟩ "2026-10-05T00:00:00") "2026-10-12T00:00:00").meta.lookup
        "ultima_actualizacion"
      = some "2026-10-12T00:00:00" ∧
     "2026-10-05T00:00:00" ≠ "2026-10-12T00:00:00") :=
  ⟨by decide,
   c8_idempotence ⟨["NOMBRE", "FECHA"], [[.str "A", .str "2024-01-01"]]⟩
     ⟨none, false, []⟩ "2026-10-05T00:00:00" "2026-10-12T00:00:00" (by decide)⟩

/-- C9: after a completed commit the metadata table maps
`total_registros` to the string-encoded committed row count and
`ultima_actualizacion` to the run timestamp, and the two writes are
key-replacing upserts: they never duplicate a key that was unique
before. -/
theorem c9_metadata_upsert (df : DataFrame) (st : DBState) (now : String) :
    (guardarDb df st now).meta.lookup "total_registros"
        = some (toString df.rows.length) ∧
    (guardarDb df st now).meta.lookup "ultima_actualizacion" = some now ∧
    ((st.meta.map Prod.fst).Nodup → ((guardarDb df st now).meta.map Prod.fst).Nodup) := by
  refine ⟨guardarDb_lookup_total _ _ _, guardarDb_lookup_ultima _ _ _, fun h => ?_⟩
  show ((metaUpsert (metaUpsert st.meta "ultima_actualizacion" now)
      "total_registros" (toString df.rows.length)).map Prod.fst).Nodup
  exact keys_nodup_metaUpsert _ _ _ (keys_nodup_metaUpsert _ _ _ h)

/-- C9, witness: committing over an existing singleton metadata
state overwrites in place. -/
theorem c9_metadata_upsert_witness :
    (guardarDb ⟨["nombre"], [[.str "A"], [.str "B"]]⟩
        ⟨none, false, [("ultima_actualizacion", "2026-01-01T00:00:00"),
          ("total_registros", "7")]⟩ "2026-10-12T00:00:00").meta.lookup
        "total_registros" = some "2" ∧
    (guardarDb ⟨["nombre"], [[.str "A"], [.str "B"]]⟩
        ⟨none, false, [("ultima_actualizacion", "2026-01-01T00:00:00"),
          ("total_registros", "7")]⟩ "2026-10-12T00:00:00").meta.lookup
        "ultima_actualizacion" = some "2026-10-12T00:00:00" ∧
    ((guardarDb ⟨["nombre"], [[.str "A"], [.str "B"]]⟩
        ⟨none, false, [("ultima_actualizacion", "2026-01-01T00:00:00"),
          ("total_registros", "7")]⟩ "2026-10-12T00:00:00").meta.map Prod.fst).Nodup :=
  ⟨(c9_metadata_upsert ⟨["nombre"], [[.str "A"], [.str "B"]]⟩
      ⟨none, false, [("ultima_actualizacion", "2026-01-01T00:00:00"),
        ("total_registros", "7")]⟩ "2026-10-12T00:00:00").1,
   (c9_metadata_upsert ⟨["nombre"], [[.str "A"], [.str "B"]]⟩
      ⟨none, false, [("ultima_actualizacion", "2026-01-01T00:00:00"),
        ("total_registros", "7")]⟩ "2026-10-12T00:00:00").2.1,
   (c9_metadata_upsert ⟨["nombre"], [[.str "A"], [.str "B"]]⟩
      ⟨none, false, [("ultima_actualizacion", "2026-01-01T00:00:00"),
        ("total_registros", "7")]⟩ "2026-10-12T00:00:00").2.2 (by decide)⟩

/-- C10: the API percentage is null whenever the parsed current
volume is 0 (Python truthiness), even with a positive capacity; it is
non-null only when both fields parse, both are nonzero, and the
capacity is strictly positive, in which case it is the half-even
rounding of `actual / total * 100` to one decimal. -/
theorem c10_percent_null_rules (row : List (String × Val)) :
    (limpiarNumero (getRowVal row "AGUA_ACTUAL") = some 0 →
      (formatoEmbalse row).porcentaje = none) ∧
    (∀ p : ℚ, (formatoEmbalse row).porcentaje = some p →
      ∃ t a : ℚ, limpiarNumero (getRowVal row "AGUA_TOTAL") = some t ∧
        limpiarNumero (getRowVal row "AGUA_ACTUAL") = some a ∧
        0 < t ∧ a ≠ 0 ∧ p = roundTo 1 (a / t * 100)) := by
  constructor
  · intro h
    simp only [formatoEmbalse, h]
    cases ht : limpiarNumero (getRowVal row "AGUA_TOTAL") with
    | none => rfl
    | some t => simp
  · intro p hp
    simp only [formatoEmbalse] at hp
    cases ht : limpiarNumero (getRowVal row "AGUA_TOTAL") with
    | none =>
      rw [ht] at hp
      exact absurd hp (by simp)
    | some t =>
      cases ha : limpiarNumero (getRowVal row "AGUA_ACTUAL") with
      | none =>
        rw [ht, ha] at hp
        exact absurd hp (by simp)
      | some a =>
        rw [ht, ha] at hp
        dsimp only at hp
        by_cases hc : t ≠ 0 ∧ a ≠ 0 ∧ 0 < t
        · rw [if_pos hc] at hp
          refine ⟨t, a, rfl, rfl, hc.2.2, hc.2.1, ?_⟩
          have hval : qMulInt (qDiv a t) 100 = a / t * 100 := by
            rw [qMulInt_eq, qDiv_eq]
            norm_num
          rw [← hval]
          exact (Option.some.injEq _ _ ▸ hp).symm
        · rw [if_neg hc] at hp
          exact absurd hp (by simp)

/-- C10, witness: a zero current volume with positive capacity gives
a null percentage, and a normal row is rounded from the quotient. -/
theorem c10_percent_null_rules_witness :
    (formatoEmbalse [("AGUA_TOTAL", .str "200"), ("AGUA_ACTUAL", .num 0)]).porcentaje
        = none ∧
    ∃ t a : ℚ,
      limpiarNumero (getRowVal [("AGUA_TOTAL", .str "200"),
        ("AGUA_ACTUAL", .str "91,00")] "AGUA_TOTAL") = some t ∧
      limpiarNumero (getRowVal [("AGUA_TOTAL", .str "200"),
        ("AGUA_ACTUAL", .str "91,00")] "AGUA_ACTUAL") = some a ∧
      0 < t ∧ a ≠ 0 ∧ mkRat 91 2 = roundTo 1 (a / t * 100) :=
  ⟨(c10_percent_null_rules [("AGUA_TOTAL", .str "200"), ("AGUA_ACTUAL", .num 0)]).1
     (by decide),
   (c10_percent_null_rules [("AGUA_TOTAL", .str "200"),
      ("AGUA_ACTUAL", .str "91,00")]).2 (mkRat 91 2) (by decide)⟩

end Embalses
